import Mathlib

/-!
Verification of the path-chronicle registry (src/path_chronicle) against its
specification. The Python code is shallowly embedded: pydantic validators
become Except-valued functions, the CSV file becomes an inductive value,
filesystem state becomes a finite list of (path, kind) nodes, and each
FsoExpansion method becomes a pure state-passing function. All file-system
paths are modelled as already-resolved absolute segment lists (the embedding
fixes the configuration branch project_root = None, so Path.resolve is the
identity on the canonical segment representation).
-/

set_option maxRecDepth 4000

namespace PathChronicle

/-! ## schema.py -/

/-- Decidable equality of Except values, so validator and load results can be
evaluated inside closed statements. -/
instance {e a : Type} [DecidableEq e] [DecidableEq a] : DecidableEq (Except e a) := fun x y =>
  match x, y with
  | .error u, .error v =>
    if h : u = v then .isTrue (by rw [h])
    else .isFalse (fun hc => h (Except.error.inj hc))
  | .error _, .ok _ => .isFalse (fun hc => Except.noConfusion hc)
  | .ok _, .error _ => .isFalse (fun hc => Except.noConfusion hc)
  | .ok u, .ok v =>
    if h : u = v then .isTrue (by rw [h])
    else .isFalse (fun hc => h (Except.ok.inj hc))

/-- Embedding of schema.PathEntry: the record stored for one registry row.
The pydantic model has fields id : int, name : str, path : str,
description : str | None. -/
structure PathEntry where
  id : Int
  name : String
  path : String
  description : Option String
deriving DecidableEq, Repr

/-- The invalid-character set of PathEntry.name_must_not_contain_invalid_chars,
exactly the characters of the source literal (note: no dot). -/
def invalid_chars : List Char :=
  [' ', '!', '@', '#', '$', '%', '^', '&', '*', '(', ')', '-', '+', '=',
   '[', ']', '\x7b', '\x7d', '|', '\\', ':', ';', '\'', '\"', ',', '<', '>',
   '?', '\x60', '~']

/-- Embedding of PathEntry.id_must_be_positive: rejects ids below zero. -/
def validate_id (v : Int) : Except String Int :=
  if v < 0 then .error "id must be positive" else .ok v

/-- Embedding of PathEntry.name_must_not_be_empty. -/
def validate_name_nonempty (v : String) : Except String String :=
  if v = "" then .error "name must not be empty" else .ok v

/-- Embedding of PathEntry.name_must_not_contain_invalid_chars: rejects a name
holding any character of invalid_chars, then a name holding the path
separator. -/
def validate_name_chars (v : String) : Except String String :=
  if v.data.any (fun c => invalid_chars.contains c) then
    .error "name must not contain invalid chars"
  else if v.data.contains '/' then
    .error "name is file or directory name, not a path"
  else .ok v

/-- The two name validators in declaration order, as pydantic runs them. -/
def validate_name (v : String) : Except String String :=
  match validate_name_nonempty v with
  | .error e => .error e
  | .ok v1 => validate_name_chars v1

/-- Embedding of PathEntry.path_must_not_be_empty. -/
def validate_path (v : String) : Except String String :=
  if v = "" then .error "path must not be empty" else .ok v

/-- Embedding of pydantic construction PathEntry(id=..., name=..., path=...,
description=...): the str fields must be present (a missing / NaN cell is a
type error, also a ValidationError), then the field validators run.
description is Optional and has no validator. -/
def PathEntry.make (id : Int) (name : Option String) (path : Option String)
    (description : Option String) : Except String PathEntry :=
  match name, path with
  | none, _ => .error "name must be a string"
  | some _, none => .error "path must be a string"
  | some nm0, some ph0 =>
    match validate_id id with
    | .error e => .error e
    | .ok i =>
      match validate_name nm0 with
      | .error e => .error e
      | .ok nm =>
        match validate_path ph0 with
        | .error e => .error e
        | .ok ph => .ok { id := i, name := nm, path := ph, description := description }

/-- The canonical CSV header, list(PathEntry.model_fields.keys()). -/
def expected_header : List String := ["id", "name", "path", "description"]

/-- The two diagnostic kinds check_header can print before returning False. -/
inductive HeaderDiag where
  | missing_or_extra
  | order_incorrect
deriving DecidableEq, Repr

/-- Python set(a) == set(b) on lists of field names. -/
def sameSet (a b : List String) : Bool :=
  a.all (fun x => b.contains x) && b.all (fun x => a.contains x)

/-- Embedding of schema.check_header: True exactly on the canonical header;
otherwise False together with the diagnostic the source prints (set
difference checked first, then order). -/
def check_header (header : List String) : Bool × Option HeaderDiag :=
  if header = expected_header then (true, none)
  else if ¬ sameSet header expected_header then (false, some .missing_or_extra)
  else (false, some .order_incorrect)

/-- Character substitution underlying name.replace with the one-character
pattern "." and replacement "_". -/
def normChar (c : Char) : Char := if c = '.' then '_' else c

/-- Embedding of schema.normalize_name: a single leading dot is kept, every
other dot becomes an underscore. replace with a one-character pattern is
character-wise substitution. -/
def normalize_name (name : String) : String :=
  match name.data with
  | '.' :: rest => String.mk ('.' :: rest.map normChar)
  | l => String.mk (l.map normChar)

/-! ## File-system paths (pathlib model) -/

/-- A resolved absolute path as its segment list ("/a/b" is ["a", "b"]). -/
abbrev FsPath := List String

/-- str(path) on the canonical segment representation. -/
def pathToStr (p : FsPath) : String := "/" ++ String.intercalate "/" p

/-- Splits a character list at the path separator. -/
def splitSlashAux : List Char → List Char → List (List Char)
  | [], acc => [acc.reverse]
  | c :: cs, acc =>
      if c = '/' then acc.reverse :: splitSlashAux cs []
      else splitSlashAux cs (c :: acc)

/-- Embedding of Path(s).resolve() for the strings the registry stores:
stored paths are already absolute and canonical, so resolution is reading the
non-empty segments back off. -/
def resolveStr (s : String) : FsPath :=
  ((splitSlashAux s.data []).filter (fun seg => seg ≠ [])).map String.mk

/-- Kind of a file-system node. -/
inductive FsKind where
  | file
  | dir
deriving DecidableEq, Repr

/-- The file system as a finite list of existing nodes with their kinds. -/
abbrev Fs := List (FsPath × FsKind)

/-- t is an initial segment of p: Path(p).is_relative_to(t) on resolved
segment lists (p equals t or lies below it). -/
def underEq : FsPath → FsPath → Bool
  | [], _ => true
  | _ :: _, [] => false
  | a :: as, b :: bs => a == b && underEq as bs

/-- p lies strictly below t. -/
def strictUnder (t p : FsPath) : Bool := underEq t p && p ≠ t

/-- target_path.exists(). -/
def fsExists (fs : Fs) (p : FsPath) : Bool := fs.any (fun e => e.1 == p)

/-- target_path.is_dir(). -/
def fsIsDir (fs : Fs) (p : FsPath) : Bool :=
  fs.any (fun e => e.1 == p && e.2 == FsKind.dir)

/-- The directory d currently holds at least one entry. -/
def fsHasChild (fs : Fs) (d : FsPath) : Bool :=
  fs.any (fun e => strictUnder d e.1)

/-- Whether the deletion loop of _delete_path runs to completion on a
directory target. glob ** yields a directory before its contents, so rmdir
raises exactly when some strict descendant that is a directory still holds an
entry at its visit; the loop aborts there. -/
def fsSubtreeDeletable (fs : Fs) (t : FsPath) : Bool :=
  fs.all (fun e =>
    !(strictUnder t e.1 && e.2 == FsKind.dir) || !fsHasChild fs e.1)

/-- Removes the target node and everything below it. -/
def fsRemoveSubtree (fs : Fs) (t : FsPath) : Fs :=
  fs.filter (fun e => !underEq t e.1)

/-- mkdir(parents=True, exist_ok=True) / touch(exist_ok=True): the node comes
into existence; creation of missing intermediate directories is elided (the
states the claims quantify over already contain them). -/
def fsCreate (fs : Fs) (p : FsPath) (k : FsKind) : Fs :=
  if fsExists fs p then fs else fs ++ [(p, k)]

/-! ## The CSV file model

csv.DictWriter writes the header then one row per entry; pandas.read_csv
reads cells back, parsing the id column numerically (an integer-looking cell
comes back as an int, other text as a str object, an empty cell as NaN) and
the three str columns as str-or-NaN. -/

/-- A parsed id cell: empty (NaN), an integer, or non-numeric text. -/
inductive IdCell where
  | empty
  | int (n : Int)
  | str (s : String)
deriving DecidableEq, Repr

/-- One data row under the canonical header. none models a NaN cell. -/
structure RawRow where
  id : IdCell
  name : Option String
  path : Option String
  description : Option String
deriving DecidableEq, Repr

/-- The backing CSV file: absent, existing with zero bytes, or a header line
followed by data rows. -/
inductive CsvFile where
  | absent
  | emptyFile
  | content (header : List String) (rows : List RawRow)
deriving DecidableEq, Repr

/-- The default na_values of pandas.read_csv: a cell holding any of these
strings (the empty cell among them) reads back as NaN. -/
def na_tokens : List String :=
  ["", "#N/A", "#N/A N/A", "#NA", "-1.#IND", "-1.#QNAN", "-NaN", "-nan",
   "1.#IND", "1.#QNAN", "<NA>", "N/A", "NA", "NULL", "NaN", "None", "n/a",
   "nan", "null"]

/-- Writing a string cell: csv writes the text, and pandas reads it back,
collapsing every default NA token (the empty cell among them) to NaN. -/
def strCell (s : String) : Option String :=
  if na_tokens.contains s then none else some s

/-- Value of a digit sequence. -/
def digitsToNat (ds : List Char) : Nat :=
  ds.foldl (fun n c => 10 * n + (c.toNat - 48)) 0

/-- Python int(str): an optional sign followed by at least one digit. -/
def pyIntOfStr (s : String) : Option Int :=
  match s.data with
  | [] => none
  | '-' :: ds =>
      if ds ≠ [] ∧ ds.all Char.isDigit then some (-(digitsToNat ds : Int))
      else none
  | ds =>
      if ds.all Char.isDigit then some ((digitsToNat ds : Int)) else none

/-- int(row_data["id"]) on the parsed cell: an int passes through, text goes
through int(str), and NaN raises (none). -/
def cellToInt : IdCell → Option Int
  | .int n => some n
  | .str s => pyIntOfStr s
  | .empty => none

/-- writer.writerow(path_info.model_dump()) for one entry, as read back. -/
def dumpRow (p : PathEntry) : RawRow :=
  { id := .int p.id
    name := strCell p.name
    path := strCell p.path
    description := match p.description with
      | none => none
      | some d => strCell d }

/-- Embedding of FsoExpansion._save_paths: overwrite the file with the
canonical header and one row per entry in collection order. -/
def save_paths (paths : List PathEntry) : CsvFile :=
  .content expected_header (paths.map dumpRow)

/-- The row loop of _load_paths from a starting 1-based position: a row whose
id cell does not convert raises ValueError, which the method re-raises
(fatal, .error); a row whose PathEntry construction fails is recorded as a
(position, message) diagnostic and skipped; valid rows accumulate in order. -/
def load_rows : List RawRow → Nat → Except String (List PathEntry × List (Nat × String))
  | [], _ => .ok ([], [])
  | r :: rs, idx =>
    match cellToInt r.id with
    | none => .error "invalid literal for int"
    | some i =>
      match PathEntry.make i r.name r.path r.description with
      | .ok e =>
        match load_rows rs (idx + 1) with
        | .ok (ps, ds) => .ok (e :: ps, ds)
        | .error m => .error m
      | .error msg =>
        match load_rows rs (idx + 1) with
        | .ok (ps, ds) => .ok (ps, (idx, msg) :: ds)
        | .error m => .error m

/-- Embedding of FsoExpansion._load_paths: an absent or zero-length file
yields the empty collection; an invalid header raises ValueError (fatal);
otherwise the rows are processed in order with 1-based positions. -/
def load_paths (f : CsvFile) : Except String (List PathEntry × List (Nat × String)) :=
  match f with
  | .absent => .ok ([], [])
  | .emptyFile => .ok ([], [])
  | .content header rows =>
    if (check_header header).1 then load_rows rows 1
    else .error "Invalid header in CSV file."

/-! ## fso_expansion.py: state and operations -/

/-- The observable state of an FsoExpansion instance together with the world
it acts on: the in-memory collection self.paths, the file system, and the
backing CSV file. -/
structure FsoState where
  paths : List PathEntry
  fs : Fs
  csvFile : CsvFile
deriving DecidableEq, Repr

/-- max([p.id for p in self.paths], default=0). -/
def maxId (paths : List PathEntry) : Int :=
  paths.foldl (fun m p => max m p.id) 0

/-- Embedding of FsoExpansion._create_path_and_save_csv (configuration branch
project_root = None: new_path is the resolved argument and is also the
created path). The entry is built first; a ValidationError aborts with
nothing created (none). Then the path is created, and on is_save_to_csv the
entry is appended and the collection saved. Returns the new state and the
returned path. -/
def create_path_and_save_csv (s : FsoState) (path : FsPath)
    (description : String) (kind : FsKind) (is_save_to_csv : Bool) :
    Option (FsoState × FsPath) :=
  match PathEntry.make (maxId s.paths + 1) (some (path.getLastD ""))
      (some (pathToStr path)) (some description) with
  | .error _ => none
  | .ok entry =>
    if is_save_to_csv then
      some ({ paths := s.paths ++ [entry], fs := fsCreate s.fs path kind,
              csvFile := save_paths (s.paths ++ [entry]) }, path)
    else
      some ({ s with fs := fsCreate s.fs path kind }, path)

/-- FsoExpansion.create_dir_and_save_csv. -/
def create_dir_and_save_csv (s : FsoState) (path : FsPath)
    (description : String) (is_save_to_csv : Bool) :
    Option (FsoState × FsPath) :=
  create_path_and_save_csv s path description FsKind.dir is_save_to_csv

/-- FsoExpansion.create_file_and_save_csv. -/
def create_file_and_save_csv (s : FsoState) (path : FsPath)
    (description : String) (is_save_to_csv : Bool) :
    Option (FsoState × FsPath) :=
  create_path_and_save_csv s path description FsKind.file is_save_to_csv

/-- Embedding of FsoExpansion.edit_csv_to_add_path: build the entry from the
resolved path, append and save; a ValidationError is caught and leaves the
state unchanged. -/
def edit_csv_to_add_path (s : FsoState) (path : FsPath)
    (description : Option String) : FsoState :=
  match PathEntry.make (maxId s.paths + 1) (some (path.getLastD ""))
      (some (pathToStr path)) description with
  | .error _ => s
  | .ok e =>
    { s with paths := s.paths ++ [e], csvFile := save_paths (s.paths ++ [e]) }

/-- Python truthiness of the optional int argument: None and 0 are falsy. -/
def intTruthy : Option Int → Bool
  | none => false
  | some v => v != 0

/-- Python truthiness of an optional string: None and "" are falsy. -/
def strTruthy : Option String → Bool
  | none => false
  | some v => v != ""

/-- Embedding of FsoExpansion.edit_csv_to_remove_path: each identifier is
consulted under Python truthiness together with a match test; the first
matching branch filters the collection and saves; with no branch taken the
raised ValueError is caught and nothing changes. The Bool reports whether a
removal happened. -/
def edit_csv_to_remove_path (s : FsoState) (id : Option Int)
    (name : Option String) (path : Option String) : FsoState × Bool :=
  if intTruthy id && s.paths.any (fun p => p.id == id.getD 0) then
    ({ s with paths := s.paths.filter (fun p => p.id != id.getD 0),
              csvFile := save_paths (s.paths.filter (fun p => p.id != id.getD 0)) },
     true)
  else if strTruthy name && s.paths.any (fun p => p.name == name.getD "") then
    ({ s with paths := s.paths.filter (fun p => p.name != name.getD ""),
              csvFile := save_paths (s.paths.filter (fun p => p.name != name.getD "")) },
     true)
  else if strTruthy path && s.paths.any (fun p => p.path == path.getD "") then
    ({ s with paths := s.paths.filter (fun p => p.path != path.getD ""),
              csvFile := save_paths (s.paths.filter (fun p => p.path != path.getD "")) },
     true)
  else (s, false)

/-- Embedding of FsoExpansion._find_target_path: id is consulted first and,
when given, decides alone; then name; then the raw path string, accepted only
when some entry stores it. -/
def find_target_path (paths : List PathEntry) (id : Option Int)
    (name : Option String) (path : Option String) : Option String :=
  match id with
  | some i => (paths.find? (fun p => p.id == i)).map (fun p => p.path)
  | none =>
    match name with
    | some n => (paths.find? (fun p => p.name == n)).map (fun p => p.path)
    | none =>
      match path with
      | some t => if paths.any (fun p => p.path == t) then some t else none
      | none => none

/-- The purge comprehension of _delete_path: keep exactly the entries whose
resolved stored path is not relative to the target. -/
def purgeEntries (paths : List PathEntry) (target : FsPath) : List PathEntry :=
  paths.filter (fun p => !underEq target (resolveStr p.path))

/-- Embedding of FsoExpansion._delete_path. On an existing target the
collection is first purged of every entry whose resolved stored path is
relative to the target; a directory target is then removed with all its
contents (none when the deletion loop aborts on a non-empty descendant
directory, the partly-deleted state is not modelled), a file target is
unlinked; the purged collection is saved. A missing target changes
nothing (none: no successful deletion). -/
def delete_path (s : FsoState) (target : FsPath) : Option FsoState :=
  if fsExists s.fs target then
    if fsIsDir s.fs target then
      if fsSubtreeDeletable s.fs target then
        some { paths := purgeEntries s.paths target,
               fs := fsRemoveSubtree s.fs target,
               csvFile := save_paths (purgeEntries s.paths target) }
      else none
    else
      some { paths := purgeEntries s.paths target,
             fs := fsRemoveSubtree s.fs target,
             csvFile := save_paths (purgeEntries s.paths target) }
  else none

/-- Embedding of FsoExpansion.remove_path_and_from_csv (project_root = None,
so the rebase of the target is skipped): an empty collection or a failed
lookup only prints and returns the state unchanged; otherwise the resolved
target is deleted. -/
def remove_path_and_from_csv (s : FsoState) (id : Option Int)
    (name : Option String) (path : Option String) : Option FsoState :=
  if s.paths.isEmpty then some s
  else
    match find_target_path s.paths id name path with
    | none => some s
    | some t => delete_path s (resolveStr t)

/-! ## Helper lemmas -/

/-- The validator pipeline of PathEntry.make flattened to one decision
chain. -/
theorem PathEntry.make_eq (i : Int) (n p : String) (d : Option String) :
    PathEntry.make i (some n) (some p) d =
      if i < 0 then .error "id must be positive"
      else if n = "" then .error "name must not be empty"
      else if n.data.any (fun c => invalid_chars.contains c) then
        .error "name must not contain invalid chars"
      else if n.data.contains '/' then
        .error "name is file or directory name, not a path"
      else if p = "" then .error "path must not be empty"
      else .ok { id := i, name := n, path := p, description := d } := by
  simp only [PathEntry.make, validate_id, validate_name, validate_name_nonempty,
    validate_name_chars, validate_path]
  by_cases h1 : i < 0
  · simp only [if_pos h1]
  simp only [if_neg h1]
  by_cases h2 : n = ""
  · simp only [if_pos h2]
  simp only [if_neg h2]
  by_cases h3 : (n.data.any fun c => invalid_chars.contains c) = true
  · simp only [if_pos h3]
  simp only [if_neg h3]
  by_cases h4 : n.data.contains '/' = true
  · simp only [if_pos h4]
  simp only [if_neg h4]
  by_cases h5 : p = ""
  · simp only [if_pos h5]
  simp only [if_neg h5]

/-- Characterization of successful pydantic construction: every validator
passes and the record carries the inputs unchanged. -/
theorem PathEntry.make_ok_iff (i : Int) (n p : String) (d : Option String)
    (e : PathEntry) :
    PathEntry.make i (some n) (some p) d = .ok e ↔
      (¬ i < 0 ∧ n ≠ "" ∧ ¬ (n.data.any fun c => invalid_chars.contains c) = true ∧
       ¬ n.data.contains '/' = true ∧ p ≠ "" ∧
       e = { id := i, name := n, path := p, description := d }) := by
  rw [PathEntry.make_eq]
  constructor
  · intro h
    split_ifs at h with h1 h2 h3 h4 h5
    all_goals
      first
        | exact Except.noConfusion h
        | (injection h with h6; exact ⟨h1, h2, h3, h4, h5, h6.symm⟩)
  · rintro ⟨h1, h2, h3, h4, h5, rfl⟩
    rw [if_neg h1, if_neg h2, if_neg h3, if_neg h4, if_neg h5]

/-- The max-fold of maxId never drops below its accumulator. -/
theorem maxId_foldl_init_le (ps : List PathEntry) (a : Int) :
    a ≤ ps.foldl (fun m p => max m p.id) a := by
  induction ps generalizing a with
  | nil => simp
  | cons q qs ih => exact le_trans (le_max_left a q.id) (ih (max a q.id))

/-- Every id in the collection is bounded by maxId. -/
theorem mem_id_le_maxId (ps : List PathEntry) (p : PathEntry) (hp : p ∈ ps) :
    p.id ≤ maxId ps := by
  unfold maxId
  generalize (0 : Int) = a
  induction ps generalizing a with
  | nil => cases hp
  | cons q qs ih =>
    rcases List.mem_cons.mp hp with h | h
    · subst h
      exact le_trans (le_max_right a p.id) (maxId_foldl_init_le qs (max a p.id))
    · exact ih h (max a q.id)

/-- The freshly assigned id maxId + 1 collides with no stored id. -/
theorem maxId_succ_not_mem (ps : List PathEntry) :
    (maxId ps + 1) ∉ ps.map (fun p => p.id) := by
  intro hmem
  rcases List.mem_map.mp hmem with ⟨p, hp, hid⟩
  have := mem_id_le_maxId ps p hp
  omega

/-- Appending an entry with a fresh id preserves id-uniqueness. -/
theorem nodup_ids_append (ps : List PathEntry) (e : PathEntry)
    (hnd : (ps.map (fun p => p.id)).Nodup) (hfresh : e.id ∉ ps.map (fun p => p.id)) :
    ((ps ++ [e]).map (fun p => p.id)).Nodup := by
  rw [List.map_append]
  rw [List.nodup_append]
  refine ⟨hnd, List.nodup_singleton _, ?_⟩
  intro x hx hx1
  simp only [List.map_cons, List.map_nil, List.mem_singleton] at hx1
  subst hx1
  exact hfresh hx

/-- The ids of a filtered collection form a sublist of the original ids. -/
theorem nodup_ids_filter (ps : List PathEntry) (f : PathEntry → Bool)
    (hnd : (ps.map (fun p => p.id)).Nodup) :
    ((ps.filter f).map (fun p => p.id)).Nodup :=
  List.Nodup.sublist (List.Sublist.map _ (List.filter_sublist ps)) hnd

/-- What a successful _delete_path yields: the purged collection, the pruned
file system, and the purged collection saved. -/
theorem delete_path_some (s : FsoState) (t : FsPath) (s2 : FsoState)
    (h : delete_path s t = some s2) :
    s2.paths = purgeEntries s.paths t ∧
    s2.fs = fsRemoveSubtree s.fs t ∧
    s2.csvFile = save_paths (purgeEntries s.paths t) := by
  unfold delete_path at h
  split_ifs at h with h1 h2 h3
  · injection h with h4
    subst h4
    exact ⟨rfl, rfl, rfl⟩
  · injection h with h4
    subst h4
    exact ⟨rfl, rfl, rfl⟩

/-- A successfully constructed entry carries the id argument. -/
theorem PathEntry.make_ok_id (i : Int) (name path d : Option String)
    (e : PathEntry) (h : PathEntry.make i name path d = .ok e) : e.id = i := by
  cases name with
  | none => exact Except.noConfusion h
  | some n =>
    cases path with
    | none => exact Except.noConfusion h
    | some p =>
      obtain ⟨-, -, -, -, -, he⟩ := (PathEntry.make_ok_iff _ _ _ _ _).mp h
      rw [he]

/-- The rows of a file that load successfully, in file order. -/
def goodRows (rows : List RawRow) : List PathEntry :=
  rows.filterMap (fun r =>
    match cellToInt r.id with
    | some i => (PathEntry.make i r.name r.path r.description).toOption
    | none => none)

/-- The diagnostics load collects: the 1-based position and message of every
row whose PathEntry construction fails. -/
def badRows (rows : List RawRow) (k : Nat) : List (Nat × String) :=
  (List.enumFrom k rows).filterMap (fun x =>
    match cellToInt x.2.id with
    | some i =>
      match PathEntry.make i x.2.name x.2.path x.2.description with
      | .ok _ => none
      | .error m => some (x.1, m)
    | none => none)

/-- The ids a successful row loop returns form a sublist of the integer
values of the file rows' id cells, in order. -/
theorem load_rows_ids_sublist (rows : List RawRow) (k : Nat)
    (ps : List PathEntry) (ds : List (Nat × String))
    (h : load_rows rows k = .ok (ps, ds)) :
    List.Sublist (ps.map (fun p => p.id))
      (rows.filterMap (fun r => cellToInt r.id)) := by
  induction rows generalizing k ps ds with
  | nil =>
    simp only [load_rows, Except.ok.injEq, Prod.mk.injEq] at h
    obtain ⟨rfl, rfl⟩ := h
    simp
  | cons r rs ih =>
    simp only [load_rows] at h
    cases hc : cellToInt r.id with
    | none =>
      simp only [hc] at h
      exact Except.noConfusion h
    | some i =>
      simp only [hc] at h
      simp only [List.filterMap_cons, hc]
      cases hm : PathEntry.make i r.name r.path r.description with
      | ok e =>
        simp only [hm] at h
        cases hr : load_rows rs (k + 1) with
        | ok pr =>
          obtain ⟨ps2, ds2⟩ := pr
          simp only [hr, Except.ok.injEq, Prod.mk.injEq] at h
          obtain ⟨rfl, rfl⟩ := h
          rw [List.map_cons, PathEntry.make_ok_id _ _ _ _ _ hm]
          exact List.Sublist.cons₂ i (ih (k + 1) ps2 ds2 hr)
        | error m =>
          simp only [hr] at h
          exact Except.noConfusion h
      | error msg =>
        simp only [hm] at h
        cases hr : load_rows rs (k + 1) with
        | ok pr =>
          obtain ⟨ps2, ds2⟩ := pr
          simp only [hr, Except.ok.injEq, Prod.mk.injEq] at h
          obtain ⟨rfl, rfl⟩ := h
          exact List.Sublist.cons i (ih (k + 1) ps2 ds2 hr)
        | error m =>
          simp only [hr] at h
          exact Except.noConfusion h

/-- When every id cell converts, the row loop succeeds, loading exactly the
validating rows and collecting a positioned diagnostic for each failing
row. -/
theorem load_rows_ok_of_ids (rows : List RawRow) (k : Nat)
    (hids : ∀ r ∈ rows, (cellToInt r.id).isSome = true) :
    load_rows rows k = .ok (goodRows rows, badRows rows k) := by
  induction rows generalizing k with
  | nil => rfl
  | cons r rs ih =>
    have hr := hids r (List.mem_cons_self r rs)
    obtain ⟨i, hc⟩ := Option.isSome_iff_exists.mp hr
    have ihr := ih (k + 1) (fun x hx => hids x (List.mem_cons_of_mem r hx))
    cases hm : PathEntry.make i r.name r.path r.description with
    | ok e =>
      simp only [load_rows, hc, hm, ihr, goodRows, badRows, List.filterMap_cons,
        List.enumFrom, Except.toOption]
    | error msg =>
      simp only [load_rows, hc, hm, ihr, goodRows, badRows, List.filterMap_cons,
        List.enumFrom, Except.toOption]

/-- The name validator chain flattened to one decision chain. -/
theorem validate_name_eq (v : String) :
    validate_name v =
      if v = "" then .error "name must not be empty"
      else if v.data.any (fun c => invalid_chars.contains c) then
        .error "name must not contain invalid chars"
      else if v.data.contains '/' then
        .error "name is file or directory name, not a path"
      else .ok v := by
  unfold validate_name validate_name_nonempty validate_name_chars
  by_cases h1 : v = ""
  · simp only [if_pos h1]
  simp only [if_neg h1]

/-! ## Claim theorems -/

/-- Claim C1: the spec and the test suite demand that a second
create-and-register of an already-registered path fail with a distinct
already-exists error and leave exactly one record. Evaluating the embedded
create on a state already holding /env/exists_dir shows the code performs no
duplicate check: the call succeeds and the registry afterwards holds two
records for the same path. -/
theorem create_duplicate_registers_second_record :
    (create_dir_and_save_csv
        { paths := [{ id := 1, name := "exists_dir", path := "/env/exists_dir",
                      description := some "Existing directory" }],
          fs := [(["env"], FsKind.dir), (["env", "exists_dir"], FsKind.dir)],
          csvFile := save_paths [{ id := 1, name := "exists_dir",
                                   path := "/env/exists_dir",
                                   description := some "Existing directory" }] }
        ["env", "exists_dir"] "Duplicate directory" true).map
      (fun r => r.1.paths.map (fun p => p.path))
      = some ["/env/exists_dir", "/env/exists_dir"] := by decide

/-- A directory /env/test_dir holding one file, both registered. -/
def populatedDirState : FsoState :=
  { paths := [{ id := 1, name := "test_dir", path := "/env/test_dir",
                description := some "test directory" },
              { id := 2, name := "sub_file", path := "/env/test_dir/sub_file.txt",
                description := some "sub file" }],
    fs := [(["env"], FsKind.dir), (["env", "test_dir"], FsKind.dir),
           (["env", "test_dir", "sub_file.txt"], FsKind.file)],
    csvFile := save_paths
      [{ id := 1, name := "test_dir", path := "/env/test_dir",
         description := some "test directory" },
       { id := 2, name := "sub_file", path := "/env/test_dir/sub_file.txt",
         description := some "sub file" }] }

/-- The state left behind by deleting /env/test_dir from
populatedDirState. -/
def populatedDirDeleted : FsoState :=
  { paths := [], fs := [(["env"], FsKind.dir)], csvFile := save_paths [] }

/-- Claim C2: the spec requires removal of a non-empty directory with
forceRemoveSubtree=False to be refused with nothing deleted. The source has
no such parameter: removal of a populated directory proceeds
unconditionally, deleting the directory, its child and both registry
records, as this evaluation of the embedded removal shows. -/
theorem remove_populated_dir_deletes_unconditionally :
    remove_path_and_from_csv populatedDirState none none (some "/env/test_dir")
      = some populatedDirDeleted := by decide

/-- Claim C8 counterexample: the claim says validation rejects every name
containing a dot, such as a.txt; the embedded validator accepts it (the
source character set has no dot). -/
theorem name_with_dot_accepted_counterexample :
    PathEntry.make 1 (some "a.txt") (some "/env/a.txt") (some "d")
      = .ok { id := 1, name := "a.txt", path := "/env/a.txt",
              description := some "d" } := rfl

/-- Claim C8 (amended): name validation fails exactly on the empty name, a
name containing a character of the source set (space and the listed
punctuation, dot not among them), or a name containing the path separator;
in particular the dot is not in the banned set. -/
theorem validate_name_characterization :
    ('.' ∉ invalid_chars) ∧
    (∀ v : String, (validate_name v).toOption = none ↔
      (v = "" ∨ (v.data.any fun c => invalid_chars.contains c) = true ∨
       v.data.contains '/' = true)) := by
  refine ⟨by decide, ?_⟩
  intro v
  rw [validate_name_eq]
  by_cases h1 : v = ""
  · rw [if_pos h1]
    exact iff_of_true rfl (Or.inl h1)
  rw [if_neg h1]
  by_cases h2 : (v.data.any fun c => invalid_chars.contains c) = true
  · rw [if_pos h2]
    exact iff_of_true rfl (Or.inr (Or.inl h2))
  rw [if_neg h2]
  by_cases h3 : v.data.contains '/' = true
  · rw [if_pos h3]
    exact iff_of_true rfl (Or.inr (Or.inr h3))
  rw [if_neg h3]
  refine iff_of_false (fun hc => Option.noConfusion hc) ?_
  rintro (hc | hc | hc)
  · exact h1 hc
  · exact h2 hc
  · exact h3 hc

/-- Claim C9: check_header is True exactly on the canonical header; a
permutation other than the canonical order yields False with the
order-incorrect diagnostic; a header whose field set differs from the
canonical set yields False with the missing-or-extra diagnostic. -/
theorem check_header_characterization :
    (∀ hd : List String, (check_header hd).1 = true ↔ hd = expected_header) ∧
    (∀ hd : List String, hd.Perm expected_header → hd ≠ expected_header →
      check_header hd = (false, some HeaderDiag.order_incorrect)) ∧
    (∀ hd : List String,
      (∃ x, (x ∈ hd ∧ x ∉ expected_header) ∨ (x ∈ expected_header ∧ x ∉ hd)) →
      check_header hd = (false, some HeaderDiag.missing_or_extra)) := by
  refine ⟨?_, ?_, ?_⟩
  · intro hd
    unfold check_header
    split_ifs with h1 h2 <;> simp [h1]
  · intro hd hperm hne
    have hss : sameSet hd expected_header = true := by
      unfold sameSet
      rw [Bool.and_eq_true, List.all_eq_true, List.all_eq_true]
      exact ⟨fun x hx => List.elem_iff.mpr (hperm.mem_iff.mp hx),
             fun x hx => List.elem_iff.mpr (hperm.mem_iff.mpr hx)⟩
    unfold check_header
    rw [if_neg hne, if_neg (by simp [hss])]
  · intro hd hx
    obtain ⟨x, hcase⟩ := hx
    have hne : hd ≠ expected_header := by
      rintro rfl
      rcases hcase with ⟨hin, hout⟩ | ⟨hin, hout⟩ <;> exact hout hin
    have hss : sameSet hd expected_header = false := by
      unfold sameSet
      rw [Bool.and_eq_false_iff]
      rcases hcase with ⟨hin, hout⟩ | ⟨hin, hout⟩
      · refine Or.inl ?_
        rw [List.all_eq_false]
        exact ⟨x, hin, by simpa using fun hc => hout (List.elem_iff.mp hc)⟩
      · refine Or.inr ?_
        rw [List.all_eq_false]
        exact ⟨x, hin, by simpa using fun hc => hout (List.elem_iff.mp hc)⟩
    unfold check_header
    rw [if_neg hne, if_pos (by simp [hss])]

/-- Witness for check_header_characterization: a concrete permutation gets
the order diagnostic and a concrete truncated header gets the
missing-or-extra diagnostic. -/
theorem check_header_characterization_witness :
    check_header ["name", "id", "path", "description"]
        = (false, some HeaderDiag.order_incorrect) ∧
    check_header ["id"] = (false, some HeaderDiag.missing_or_extra) :=
  ⟨check_header_characterization.2.1 ["name", "id", "path", "description"]
      (by decide) (by decide),
   check_header_characterization.2.2 ["id"]
      ⟨"name", Or.inr ⟨by decide, by decide⟩⟩⟩

/-- Claim C10: the id validator accepts 0 (it rejects exactly the negative
ids), yet removal by id 0 can never fire: Python truthiness treats the
argument 0 as absent, so edit_csv_to_remove_path reports no valid identifier
and leaves the collection and the saved file unchanged. -/
theorem remove_by_id_zero_is_noop :
    validate_id 0 = .ok 0 ∧
    (∀ v : Int, (validate_id v).toOption = none ↔ v < 0) ∧
    (∀ s : FsoState, edit_csv_to_remove_path s (some 0) none none = (s, false)) := by
  refine ⟨rfl, ?_, ?_⟩
  · intro v
    unfold validate_id
    split_ifs with h <;> simp [Except.toOption, h]
  · intro s
    unfold edit_csv_to_remove_path
    simp [intTruthy, strTruthy]

/-- Claim C3: whenever _delete_path successfully deletes a target, every
registry entry whose resolved stored path equals the target or lies below it
is purged, every other entry is retained in order, the purged collection is
what gets persisted, and the file system loses exactly the target
subtree. -/
theorem delete_path_purges_subtree (s : FsoState) (t : FsPath) (s2 : FsoState)
    (h : delete_path s t = some s2) :
    (∀ e ∈ s.paths, (e ∈ s2.paths ↔ underEq t (resolveStr e.path) = false)) ∧
    List.Sublist s2.paths s.paths ∧
    s2.csvFile = save_paths s2.paths ∧
    s2.fs = fsRemoveSubtree s.fs t := by
  obtain ⟨hp, hf, hc⟩ := delete_path_some s t s2 h
  refine ⟨?_, ?_, ?_, hf⟩
  · intro e he
    rw [hp]
    simp only [purgeEntries, List.mem_filter, he, true_and, Bool.not_eq_true']
  · rw [hp]
    exact List.filter_sublist s.paths
  · rw [hc, hp]

/-- Witness for delete_path_purges_subtree on the populated directory
state. -/
theorem delete_path_purges_subtree_witness :
    populatedDirDeleted.csvFile = save_paths populatedDirDeleted.paths ∧
    populatedDirDeleted.fs
      = fsRemoveSubtree populatedDirState.fs ["env", "test_dir"] :=
  (delete_path_purges_subtree populatedDirState ["env", "test_dir"]
      populatedDirDeleted (by decide)).2.2

/-- Claim C4 counterexample: a backing file whose two valid rows carry the
same id loads without complaint into a collection with a duplicated id, so
the loaded registry is not always id-unique. -/
theorem load_duplicate_ids_counterexample :
    (load_paths (CsvFile.content expected_header
        [{ id := IdCell.int 1, name := some "a", path := some "/a",
           description := none },
         { id := IdCell.int 1, name := some "b", path := some "/b",
           description := none }])).toOption.map
      (fun r => r.1.map (fun p => p.id)) = some [1, 1] ∧
    ¬ ([1, 1] : List Int).Nodup := by
  exact ⟨rfl, by decide⟩

/-- Claim C4 (amended): id-uniqueness is preserved rather than established.
Loading never introduces a duplicate beyond those of the file (the loaded
ids form a sublist of the file id cells), and every mutating operation of
the registry preserves id-uniqueness of the collection: create-and-register
and registry-only add assign the fresh id maxId + 1, removal only filters. -/
theorem registry_id_uniqueness :
    (∀ hdr rows ps ds,
        load_paths (CsvFile.content hdr rows) = .ok (ps, ds) →
        (rows.filterMap (fun r => cellToInt r.id)).Nodup →
        (ps.map (fun p => p.id)).Nodup) ∧
    (∀ s path d k sv s2 rp, (s.paths.map (fun p => p.id)).Nodup →
        create_path_and_save_csv s path d k sv = some (s2, rp) →
        (s2.paths.map (fun p => p.id)).Nodup) ∧
    (∀ s path d, (s.paths.map (fun p => p.id)).Nodup →
        ((edit_csv_to_add_path s path d).paths.map (fun p => p.id)).Nodup) ∧
    (∀ s i n pth, (s.paths.map (fun p => p.id)).Nodup →
        ((edit_csv_to_remove_path s i n pth).1.paths.map (fun p => p.id)).Nodup) ∧
    (∀ s t s2, (s.paths.map (fun p => p.id)).Nodup →
        delete_path s t = some s2 →
        (s2.paths.map (fun p => p.id)).Nodup) := by
  refine ⟨?_, ?_, ?_, ?_, ?_⟩
  · intro hdr rows ps ds h hnd
    simp only [load_paths] at h
    split_ifs at h with hh
    exact List.Nodup.sublist (load_rows_ids_sublist rows 1 ps ds h) hnd
  · intro s path d k sv s2 rp hnd h
    simp only [create_path_and_save_csv] at h
    cases hm : PathEntry.make (maxId s.paths + 1) (some (path.getLastD ""))
        (some (pathToStr path)) (some d) with
    | error msg =>
      simp only [hm] at h
      exact Option.noConfusion h
    | ok entry =>
      simp only [hm] at h
      have hfresh : entry.id ∉ s.paths.map (fun p => p.id) := by
        rw [PathEntry.make_ok_id _ _ _ _ _ hm]
        exact maxId_succ_not_mem s.paths
      split_ifs at h with hsv
      · injection h with h2
        injection h2 with hst hrp
        subst hst
        exact nodup_ids_append s.paths entry hnd hfresh
      · injection h with h2
        injection h2 with hst hrp
        subst hst
        exact hnd
  · intro s path d hnd
    unfold edit_csv_to_add_path
    cases hm : PathEntry.make (maxId s.paths + 1) (some (path.getLastD ""))
        (some (pathToStr path)) d with
    | error msg => exact hnd
    | ok e =>
      have hfresh : e.id ∉ s.paths.map (fun p => p.id) := by
        rw [PathEntry.make_ok_id _ _ _ _ _ hm]
        exact maxId_succ_not_mem s.paths
      exact nodup_ids_append s.paths e hnd hfresh
  · intro s i n pth hnd
    unfold edit_csv_to_remove_path
    split_ifs <;> first
      | exact hnd
      | exact nodup_ids_filter s.paths _ hnd
  · intro s t s2 hnd h
    obtain ⟨hp, -, -⟩ := delete_path_some s t s2 h
    rw [hp]
    exact nodup_ids_filter s.paths _ hnd

/-- Witness for registry_id_uniqueness at a concrete one-entry state and a
removal by id. -/
theorem registry_id_uniqueness_witness :
    ((edit_csv_to_remove_path
        { paths := [{ id := 1, name := "a", path := "/a", description := none }],
          fs := [], csvFile := CsvFile.absent }
        (some 1) none none).1.paths.map (fun p => p.id)).Nodup :=
  registry_id_uniqueness.2.2.2.1
    { paths := [{ id := 1, name := "a", path := "/a", description := none }],
      fs := [], csvFile := CsvFile.absent }
    (some 1) none none (by decide)

/-- Claim C5 counterexample: the claim wants a row with a non-integer id
field collected as a row diagnostic without aborting the load; the embedded
load instead re-raises the ValueError from int(), aborting the whole
load. -/
theorem load_nonint_id_fatal_counterexample :
    load_paths (CsvFile.content expected_header
        [{ id := IdCell.str "abc", name := some "n", path := some "/p",
           description := none }])
      = Except.error "invalid literal for int" := rfl

/-- Claim C5 (amended): an absent or zero-length file loads as the empty
collection; an invalid header is fatal; when every id cell converts to an
integer the load succeeds, returning the validating rows in order together
with a positioned diagnostic for every row whose field validation fails; a
row whose id cell does not convert (non-integer text or an empty cell) is
fatal to the whole load. -/
theorem load_paths_error_handling :
    (load_paths CsvFile.absent = .ok ([], []) ∧
     load_paths CsvFile.emptyFile = .ok ([], [])) ∧
    (∀ hdr rows, (check_header hdr).1 = false →
        load_paths (CsvFile.content hdr rows)
          = .error "Invalid header in CSV file.") ∧
    (∀ rows, (∀ r ∈ rows, (cellToInt r.id).isSome = true) →
        load_paths (CsvFile.content expected_header rows)
          = .ok (goodRows rows, badRows rows 1)) ∧
    (∀ r rows k, cellToInt r.id = none →
        load_rows (r :: rows) k = .error "invalid literal for int") := by
  refine ⟨⟨rfl, rfl⟩, ?_, ?_, ?_⟩
  · intro hdr rows hbad
    simp only [load_paths]
    rw [if_neg (by rw [hbad]; exact Bool.false_ne_true)]
  · intro rows hids
    simp only [load_paths]
    rw [if_pos (by decide)]
    exact load_rows_ok_of_ids rows 1 hids
  · intro r rows k hc
    simp only [load_rows, hc]

/-- A file with one valid row, one row failing name validation and one more
valid row. -/
def mixedRows : List RawRow :=
  [{ id := IdCell.int 1, name := some "ok_name", path := some "/a",
     description := none },
   { id := IdCell.int 2, name := some "bad name", path := some "/b",
     description := none },
   { id := IdCell.int 3, name := some "ok2", path := some "/c",
     description := none }]

/-- Witness for load_paths_error_handling: the mixed file loads its two
valid rows and reports the failing middle row at position 2. -/
theorem load_paths_error_handling_witness :
    load_paths (CsvFile.content expected_header mixedRows)
      = .ok ([{ id := 1, name := "ok_name", path := "/a", description := none },
              { id := 3, name := "ok2", path := "/c", description := none }],
             [(2, "name must not contain invalid chars")]) :=
  (load_paths_error_handling.2.2.1 mixedRows (by decide)).trans rfl

/-- An environment directory with an empty registry. -/
def envOnlyState : FsoState :=
  { paths := [], fs := [(["env"], FsKind.dir)], csvFile := save_paths [] }

/-- Claim C7 counterexample: creating a file whose final segment holds inner
dots stores that segment verbatim, not its normalize_name image, so the
claim that the stored name has normalization applied fails. -/
theorem create_name_not_normalized_counterexample :
    (create_file_and_save_csv envOnlyState ["env", "a.b.txt"] "d" true).map
        (fun r => r.1.paths.map (fun p => p.name)) = some ["a.b.txt"] ∧
    normalize_name "a.b.txt" = "a_b_txt" ∧
    ("a.b.txt" : String) ≠ "a_b_txt" := by
  refine ⟨rfl, rfl, by decide⟩

/-- Claim C7 (amended): a successful create-and-register with persistence
appends one entry whose stored name is the created path's final segment
verbatim; normalize_name is not applied at registration time (the source
applies it only when generating the path class file). -/
theorem create_stores_raw_final_segment (s : FsoState) (path : FsPath)
    (d : String) (k : FsKind) (s2 : FsoState) (rp : FsPath)
    (h : create_path_and_save_csv s path d k true = some (s2, rp)) :
    s2.paths.map (fun p => p.name)
      = s.paths.map (fun p => p.name) ++ [path.getLastD ""] ∧
    rp = path := by
  simp only [create_path_and_save_csv] at h
  cases hm : PathEntry.make (maxId s.paths + 1) (some (path.getLastD ""))
      (some (pathToStr path)) (some d) with
  | error msg =>
    simp only [hm] at h
    exact Option.noConfusion h
  | ok entry =>
    simp only [hm, if_pos] at h
    injection h with h2
    injection h2 with hst hrp
    obtain ⟨-, -, -, -, -, he⟩ := (PathEntry.make_ok_iff _ _ _ _ _).mp hm
    refine ⟨?_, hrp.symm⟩
    rw [← hst]
    simp only [List.map_append, List.map_cons, List.map_nil, he]

/-- Witness for create_stores_raw_final_segment: creating /env/note.txt on
the empty registry stores the name note.txt. -/
theorem create_stores_raw_final_segment_witness :
    ({ paths := [{ id := 1, name := "note.txt", path := "/env/note.txt",
                   description := some "d" }],
       fs := [(["env"], FsKind.dir), (["env", "note.txt"], FsKind.file)],
       csvFile := save_paths [{ id := 1, name := "note.txt",
                                path := "/env/note.txt",
                                description := some "d" }] } : FsoState).paths.map
        (fun p => p.name)
      = envOnlyState.paths.map (fun p => p.name)
        ++ [(["env", "note.txt"] : FsPath).getLastD ""] ∧
    (["env", "note.txt"] : FsPath) = ["env", "note.txt"] :=
  create_stores_raw_final_segment envOnlyState ["env", "note.txt"] "d"
    FsKind.file _ ["env", "note.txt"] (by decide)

end PathChronicle
